import Mathlib

/-!
Verification of the natural-language specification of `proj2_nps.py`
(SI507 Project 2: a national-park-site scraper with three persistent JSON
file caches) against a shallow embedding of the program in Lean.

The embedding follows the Python source:

* JSON documents are modelled by `JsonVal` (numbers restricted to integers:
  the program's cache documents are built from scraped strings and decoded
  API responses, and exact-float behaviour is outside the scope of every
  claim).  `jsonDumps` models `json.dump` (Python's default separators
  `", "` / `": "`, escaping of the common control characters); `json_loads`
  models `json.load` / `json.loads` as an executable recursive-descent
  parser with explicit fuel.
* The file system is an association list `FS` from filenames to file
  contents; `openCache` / `closeCache` are the program's two cache
  primitives (lines 47-58 of the source).
* Network access (page fetches, the MapQuest request) is passed in as an
  explicit oracle argument, and each resolver returns a `Bool` recording
  whether it issued a fetch, so that "no network call" claims are statable.
-/

/-- A JSON value as produced by Python's `json` module, with numbers
restricted to integers (no claim concerns floats). -/
inductive JsonVal where
  | null : JsonVal
  | bool (b : Bool) : JsonVal
  | num (n : Int) : JsonVal
  | str (s : String) : JsonVal
  | arr (xs : List JsonVal) : JsonVal
  | obj (kvs : List (String × JsonVal)) : JsonVal

/-! ### Rendering (`json.dump`) -/

/-- The decimal digit characters. -/
def digitChar : Nat → Char
  | 0 => '0'
  | 1 => '1'
  | 2 => '2'
  | 3 => '3'
  | 4 => '4'
  | 5 => '5'
  | 6 => '6'
  | 7 => '7'
  | 8 => '8'
  | 9 => '9'
  | _ => '*'

/-- Decimal digits of `n`, most significant first, in front of `acc`. -/
def natDigitsAux (n : Nat) (acc : List Char) : List Char :=
  if n < 10 then digitChar n :: acc
  else natDigitsAux (n / 10) (digitChar (n % 10) :: acc)
termination_by n
decreasing_by exact Nat.div_lt_self (by omega) (by omega)

/-- Decimal digits of `n`, most significant first. -/
def natDigits (n : Nat) : List Char := natDigitsAux n []

/-- Decimal rendering of an integer, as Python's `str`/`json.dump` print it. -/
def intChars (i : Int) : List Char :=
  if i < 0 then '-' :: natDigits (-i).toNat else natDigits i.toNat

/-- JSON escape of one character inside a string literal (the escapes
`json.dump` emits for the common control characters; `\uXXXX` escaping of
other code points is identity-preserving and not modelled). -/
def escChar (c : Char) : List Char :=
  if c = '"' then ['\\', '"']
  else if c = '\\' then ['\\', '\\']
  else if c = '\n' then ['\\', 'n']
  else if c = '\t' then ['\\', 't']
  else if c = '\r' then ['\\', 'r']
  else [c]

/-- JSON escape of a character list. -/
def escapeList : List Char → List Char
  | [] => []
  | c :: cs => escChar c ++ escapeList cs

/-- A JSON string literal: `"` + escaped body + `"`. -/
def renderStr (l : List Char) : List Char := '"' :: (escapeList l ++ ['"'])

/-- The characters of the keyword `null`. -/
def nullChars : List Char := ['n', 'u', 'l', 'l']

/-- The characters of the keyword `true`. -/
def trueChars : List Char := ['t', 'r', 'u', 'e']

/-- The characters of the keyword `false`. -/
def falseChars : List Char := ['f', 'a', 'l', 's', 'e']

mutual

/-- Serialization of a JSON value exactly as Python's `json.dump` writes it
(default separators `", "` and `": "`, no added whitespace elsewhere). -/
def renderJson : JsonVal → List Char
  | .null => nullChars
  | .bool true => trueChars
  | .bool false => falseChars
  | .num i => intChars i
  | .str s => renderStr s.data
  | .arr [] => ['[', ']']
  | .arr (x :: xs) => '[' :: (renderJson x ++ (renderArrRest xs ++ [']']))
  | .obj [] => ['{', '}']
  | .obj ((k, v) :: kvs) =>
    '{' :: ((renderStr k.data ++ (':' :: ' ' :: renderJson v))
      ++ (renderObjRest kvs ++ ['}']))
termination_by structural v => v

/-- The remaining array elements, each preceded by `", "`. -/
def renderArrRest : List JsonVal → List Char
  | [] => []
  | x :: xs => ',' :: ' ' :: (renderJson x ++ renderArrRest xs)
termination_by structural xs => xs

/-- The remaining object members, each preceded by `", "`. -/
def renderObjRest : List (String × JsonVal) → List Char
  | [] => []
  | (k, v) :: kvs =>
    ',' :: ' ' :: ((renderStr k.data ++ (':' :: ' ' :: renderJson v))
      ++ renderObjRest kvs)
termination_by structural kvs => kvs

end

/-- One object member `"key": value` (the shape inlined in `renderJson` and
`renderObjRest`). -/
def renderMemberK (k : String) (v : JsonVal) : List Char :=
  renderStr k.data ++ (':' :: ' ' :: renderJson v)

lemma renderJson_obj_cons (k : String) (v : JsonVal) (kvs : List (String × JsonVal)) :
    renderJson (.obj ((k, v) :: kvs))
      = '{' :: (renderMemberK k v ++ (renderObjRest kvs ++ ['}'])) := by
  rw [renderJson, renderMemberK]

lemma renderObjRest_cons (k : String) (v : JsonVal) (kvs : List (String × JsonVal)) :
    renderObjRest ((k, v) :: kvs)
      = ',' :: ' ' :: (renderMemberK k v ++ renderObjRest kvs) := by
  rw [renderObjRest, renderMemberK]

/-- `json.dump` of a value, as the string written to the cache file. -/
def jsonDumps (v : JsonVal) : String := String.mk (renderJson v)

/-! ### Parsing (`json.load`) -/

/-- The JSON whitespace characters (the set `json.load` skips). -/
def isWsChar (c : Char) : Bool := c = ' ' || c = '\t' || c = '\n' || c = '\r'

/-- Skip leading JSON whitespace. -/
def skipWs : List Char → List Char
  | [] => []
  | c :: cs => if isWsChar c then skipWs cs else c :: cs

/-- Consume an expected literal character sequence. -/
def expectChars : List Char → List Char → Option (List Char)
  | [], input => some input
  | _ :: _, [] => none
  | c :: cs, d :: ds => if d = c then expectChars cs ds else none

/-- Resolution of a backslash escape inside a JSON string literal
(`\uXXXX` escapes are not modelled; no claim depends on them). -/
def unesc (c : Char) : Option Char :=
  if c = '"' then some '"'
  else if c = '\\' then some '\\'
  else if c = '/' then some '/'
  else if c = 'n' then some '\n'
  else if c = 't' then some '\t'
  else if c = 'r' then some '\r'
  else if c = 'b' then some '\x08'
  else if c = 'f' then some '\x0c'
  else none

/-- Parse the body of a JSON string literal after the opening quote,
returning the decoded characters and the input after the closing quote. -/
def pStrChars : List Char → Option (List Char × List Char)
  | [] => none
  | c :: cs =>
    if c = '"' then some ([], cs)
    else if c = '\\' then
      match cs with
      | [] => none
      | e :: cs' =>
        match unesc e with
        | some d =>
          match pStrChars cs' with
          | some (s, r) => some (d :: s, r)
          | none => none
        | none => none
    else
      match pStrChars cs with
      | some (s, r) => some (c :: s, r)
      | none => none

/-- Value of a digit character. -/
def digitVal (c : Char) : Nat := c.toNat - 48

/-- Parse a nonempty run of decimal digits. -/
def pNat (l : List Char) : Option (Nat × List Char) :=
  let ds := l.takeWhile Char.isDigit
  if ds = [] then none
  else some (ds.foldl (fun a c => 10 * a + digitVal c) 0, l.dropWhile Char.isDigit)

/-- Parse a JSON integer (an optional minus sign and digits; an input whose
number continues with `.` or `e` is left for the surrounding context to
reject, which is conservative with respect to Python for the float-free
documents every claim is about). -/
def pNum : List Char → Option (JsonVal × List Char)
  | [] => none
  | c :: cs =>
    if c = '-' then
      match pNat cs with
      | some (n, r) => some (.num (-(n : Int)), r)
      | none => none
    else
      match pNat (c :: cs) with
      | some (n, r) => some (.num ((n : Int)), r)
      | none => none

mutual

/-- Parse one JSON value (recursive-descent with fuel; every recursive call
consumes at least one input character, so fuel `length + 1` suffices). -/
def pVal : Nat → List Char → Option (JsonVal × List Char)
  | 0, _ => none
  | fuel + 1, input =>
    match skipWs input with
    | [] => none
    | c :: cs =>
      if c = '"' then
        match pStrChars cs with
        | some (s, r) => some (.str (String.mk s), r)
        | none => none
      else if c = '[' then
        match skipWs cs with
        | [] => none
        | d :: ds =>
          if d = ']' then some (.arr [], ds)
          else
            match pVal fuel (d :: ds) with
            | some (x, r) =>
              match pArrRest fuel r with
              | some (xs, r2) => some (.arr (x :: xs), r2)
              | none => none
            | none => none
      else if c = '{' then
        match skipWs cs with
        | [] => none
        | d :: ds =>
          if d = '}' then some (.obj [], ds)
          else
            match pMember fuel (d :: ds) with
            | some (kv, r) =>
              match pObjRest fuel r with
              | some (kvs, r2) => some (.obj (kv :: kvs), r2)
              | none => none
            | none => none
      else if c = 'n' then
        match expectChars ['u', 'l', 'l'] cs with
        | some r => some (.null, r)
        | none => none
      else if c = 't' then
        match expectChars ['r', 'u', 'e'] cs with
        | some r => some (.bool true, r)
        | none => none
      else if c = 'f' then
        match expectChars ['a', 'l', 's', 'e'] cs with
        | some r => some (.bool false, r)
        | none => none
      else pNum (c :: cs)

/-- Parse the elements of an array after the first element: either `]`
or `, value` repeated. -/
def pArrRest : Nat → List Char → Option (List JsonVal × List Char)
  | 0, _ => none
  | fuel + 1, input =>
    match skipWs input with
    | [] => none
    | c :: cs =>
      if c = ']' then some ([], cs)
      else if c = ',' then
        match pVal fuel cs with
        | some (x, r) =>
          match pArrRest fuel r with
          | some (xs, r2) => some (x :: xs, r2)
          | none => none
        | none => none
      else none

/-- Parse one object member `"key": value`. -/
def pMember : Nat → List Char → Option ((String × JsonVal) × List Char)
  | 0, _ => none
  | fuel + 1, input =>
    match skipWs input with
    | [] => none
    | c :: cs =>
      if c = '"' then
        match pStrChars cs with
        | some (k, r) =>
          match skipWs r with
          | [] => none
          | d :: ds =>
            if d = ':' then
              match pVal fuel ds with
              | some (v, r2) => some ((String.mk k, v), r2)
              | none => none
            else none
        | none => none
      else none

/-- Parse the members of an object after the first member: either `}`
or `, "key": value` repeated. -/
def pObjRest : Nat → List Char → Option (List (String × JsonVal) × List Char)
  | 0, _ => none
  | fuel + 1, input =>
    match skipWs input with
    | [] => none
    | c :: cs =>
      if c = '}' then some ([], cs)
      else if c = ',' then
        match pMember fuel cs with
        | some (kv, r) =>
          match pObjRest fuel r with
          | some (kvs, r2) => some (kv :: kvs, r2)
          | none => none
        | none => none
      else none

end

/-- `json.loads`: parse a whole document; anything but trailing whitespace
after the value is an error. -/
def json_loads (s : String) : Option JsonVal :=
  match pVal (s.data.length + 1) s.data with
  | some (v, r) =>
    match skipWs r with
    | [] => some v
    | _ :: _ => none
  | none => none

/-! ### Correctness of the parser on rendered documents -/

/-- The continuation after a rendered value never starts with a digit
(it is empty or starts with `,`, `]`, `}`). -/
def ndh : List Char → Bool
  | [] => true
  | c :: _ => !c.isDigit

lemma digitChar_isDigit (d : Nat) (h : d < 10) : (digitChar d).isDigit = true := by
  interval_cases d <;> decide

lemma digitVal_digitChar (d : Nat) (h : d < 10) : digitVal (digitChar d) = d := by
  interval_cases d <;> decide

lemma isDigit_not_ws {c : Char} (h : c.isDigit = true) : isWsChar c = false := by
  by_cases e1 : c = ' '
  · subst e1; simp at h
  by_cases e2 : c = '\t'
  · subst e2; simp at h
  by_cases e3 : c = '\n'
  · subst e3; simp at h
  by_cases e4 : c = '\r'
  · subst e4; simp at h
  simp [isWsChar, e1, e2, e3, e4]

lemma isDigit_ne {c : Char} (d : Char) (h : c.isDigit = true) (hd : d.isDigit = false) :
    c ≠ d := by
  intro e; subst e; rw [h] at hd; cases hd

lemma natDigitsAux_append : ∀ n acc, natDigitsAux n acc = natDigits n ++ acc := by
  intro n
  induction n using Nat.strong_induction_on with
  | _ n ih =>
    intro acc
    by_cases h : n < 10
    · rw [natDigitsAux, if_pos h]
      conv_rhs => rw [natDigits, natDigitsAux, if_pos h]
      rfl
    · have hlt : n / 10 < n := Nat.div_lt_self (by omega) (by omega)
      rw [natDigitsAux, if_neg h, ih _ hlt]
      conv_rhs => rw [natDigits, natDigitsAux, if_neg h, ih _ hlt]
      simp

lemma natDigits_ne_nil (n : Nat) : natDigits n ≠ [] := by
  rw [natDigits, natDigitsAux]
  by_cases h : n < 10
  · simp [h]
  · rw [if_neg h, natDigitsAux_append]
    simp

lemma natDigits_all_digit : ∀ n, ∀ c ∈ natDigits n, c.isDigit = true := by
  intro n
  induction n using Nat.strong_induction_on with
  | _ n ih =>
    intro c hc
    rw [natDigits, natDigitsAux] at hc
    by_cases h : n < 10
    · rw [if_pos h] at hc
      simp at hc
      subst hc
      exact digitChar_isDigit n h
    · rw [if_neg h, natDigitsAux_append] at hc
      rcases List.mem_append.1 hc with h1 | h2
      · exact ih _ (Nat.div_lt_self (by omega) (by omega)) c h1
      · simp at h2
        subst h2
        exact digitChar_isDigit _ (Nat.mod_lt _ (by omega))

lemma foldl_natDigitsAux : ∀ n a rest,
    List.foldl (fun a c => 10 * a + digitVal c) a (natDigitsAux n rest)
      = List.foldl (fun a c => 10 * a + digitVal c) (a * 10 ^ (natDigits n).length + n) rest := by
  intro n
  induction n using Nat.strong_induction_on with
  | _ n ih =>
    intro a rest
    by_cases h : n < 10
    · rw [natDigitsAux, if_pos h]
      have hlen : (natDigits n).length = 1 := by
        rw [natDigits, natDigitsAux, if_pos h]
        rfl
      rw [hlen]
      simp only [List.foldl, digitVal_digitChar n h, pow_one]
      congr 1
      ring
    · have hlt : n / 10 < n := Nat.div_lt_self (by omega) (by omega)
      rw [natDigitsAux, if_neg h, ih _ hlt]
      have hlen : (natDigits n).length = (natDigits (n / 10)).length + 1 := by
        conv_lhs => rw [natDigits, natDigitsAux, if_neg h, natDigitsAux_append]
        simp
      rw [hlen]
      simp only [List.foldl]
      congr 1
      have hdv : digitVal (digitChar (n % 10)) = n % 10 :=
        digitVal_digitChar _ (Nat.mod_lt _ (by omega))
      rw [hdv]
      have hdm : 10 * (n / 10) + n % 10 = n := Nat.div_add_mod n 10
      have : 10 * (a * 10 ^ (natDigits (n / 10)).length + n / 10) + n % 10
          = a * (10 ^ (natDigits (n / 10)).length * 10) + (10 * (n / 10) + n % 10) := by
        ring
      rw [this, hdm, pow_succ]

lemma takeWhile_digits_append (ds rest : List Char)
    (hds : ∀ c ∈ ds, c.isDigit = true) (hr : ndh rest = true) :
    (ds ++ rest).takeWhile Char.isDigit = ds ∧
    (ds ++ rest).dropWhile Char.isDigit = rest := by
  induction ds with
  | nil =>
    simp only [List.nil_append]
    cases rest with
    | nil => simp [List.takeWhile, List.dropWhile]
    | cons c t =>
      have hc : c.isDigit = false := by
        simp [ndh] at hr
        exact hr
      simp [List.takeWhile, List.dropWhile, hc]
  | cons d ds ih =>
    have hd : d.isDigit = true := hds d (by simp)
    have hds' : ∀ c ∈ ds, c.isDigit = true := fun c hc => hds c (by simp [hc])
    obtain ⟨h1, h2⟩ := ih hds'
    simp [List.takeWhile, List.dropWhile, hd, h1, h2]

lemma pNat_natDigits (n : Nat) (rest : List Char) (hr : ndh rest = true) :
    pNat (natDigits n ++ rest) = some (n, rest) := by
  obtain ⟨h1, h2⟩ := takeWhile_digits_append (natDigits n) rest (natDigits_all_digit n) hr
  rw [pNat]
  simp only [h1, h2, if_neg (natDigits_ne_nil n)]
  have := foldl_natDigitsAux n 0 []
  rw [natDigits] at this ⊢
  rw [this]
  simp

lemma pNum_intChars (i : Int) (rest : List Char) (hr : ndh rest = true) :
    pNum (intChars i ++ rest) = some (.num i, rest) := by
  rw [intChars]
  by_cases hi : i < 0
  · rw [if_pos hi]
    rw [List.cons_append, pNum]
    rw [if_pos rfl, pNat_natDigits _ _ hr]
    have : ((-i).toNat : Int) = -i := Int.toNat_of_nonneg (by omega)
    simp [this]
  · rw [if_neg hi]
    cases hnd : natDigits i.toNat with
    | nil => exact absurd hnd (natDigits_ne_nil _)
    | cons c t =>
      have hc : c.isDigit = true := natDigits_all_digit _ c (by rw [hnd]; simp)
      rw [List.cons_append, pNum]
      rw [if_neg (isDigit_ne '-' hc (by decide))]
      rw [← List.cons_append, ← hnd, pNat_natDigits _ _ hr]
      have : (i.toNat : Int) = i := Int.toNat_of_nonneg (by omega)
      simp [this]

lemma esc_roundtrip : ∀ l rest, pStrChars (escapeList l ++ ('"' :: rest)) = some (l, rest) := by
  intro l
  induction l with
  | nil =>
    intro rest
    rw [escapeList]
    rw [pStrChars.eq_def]
    simp
  | cons c t ih =>
    intro rest
    rw [escapeList, escChar]
    by_cases h1 : c = '"'
    · subst h1
      simp only [if_pos rfl, List.cons_append]
      rw [pStrChars.eq_def]
      simp [unesc, ih]
    by_cases h2 : c = '\\'
    · subst h2
      simp only [if_neg (by decide : ¬('\\' : Char) = '"'), if_pos rfl, List.cons_append]
      rw [pStrChars.eq_def]
      simp [unesc, ih]
    by_cases h3 : c = '\n'
    · subst h3
      simp only [if_neg (by decide : ¬('\n' : Char) = '"'),
        if_neg (by decide : ¬('\n' : Char) = '\\'), if_pos rfl, List.cons_append]
      rw [pStrChars.eq_def]
      simp [unesc, ih]
    by_cases h4 : c = '\t'
    · subst h4
      simp only [if_neg (by decide : ¬('\t' : Char) = '"'),
        if_neg (by decide : ¬('\t' : Char) = '\\'),
        if_neg (by decide : ¬('\t' : Char) = '\n'), if_pos rfl, List.cons_append]
      rw [pStrChars.eq_def]
      simp [unesc, ih]
    by_cases h5 : c = '\r'
    · subst h5
      simp only [if_neg (by decide : ¬('\r' : Char) = '"'),
        if_neg (by decide : ¬('\r' : Char) = '\\'),
        if_neg (by decide : ¬('\r' : Char) = '\n'),
        if_neg (by decide : ¬('\r' : Char) = '\t'), if_pos rfl, List.cons_append]
      rw [pStrChars.eq_def]
      simp [unesc, ih]
    rw [if_neg h1, if_neg h2, if_neg h3, if_neg h4, if_neg h5]
    simp only [List.singleton_append, List.cons_append]
    rw [pStrChars.eq_def]
    simp [h1, h2, ih]

lemma skipWs_cons_not {c : Char} (h : isWsChar c = false) (l : List Char) :
    skipWs (c :: l) = c :: l := by
  simp [skipWs, h]

lemma skipWs_ws_cons {c : Char} (h : isWsChar c = true) (l : List Char) :
    skipWs (c :: l) = skipWs l := by
  simp [skipWs, h]

lemma pVal_ws_cons (f : Nat) {c : Char} (h : isWsChar c = true) (l : List Char) :
    pVal f (c :: l) = pVal f l := by
  cases f with
  | zero => rfl
  | succ g => rw [pVal, pVal, skipWs_ws_cons h]

lemma pMember_ws_cons (f : Nat) {c : Char} (h : isWsChar c = true) (l : List Char) :
    pMember f (c :: l) = pMember f l := by
  cases f with
  | zero => rfl
  | succ g => rw [pMember, pMember, skipWs_ws_cons h]

lemma string_mk_data (s : String) : String.mk s.data = s := rfl

lemma render_head (v : JsonVal) :
    ∃ c t, renderJson v = c :: t ∧ isWsChar c = false ∧ c ≠ ']' ∧ c ≠ '}' := by
  cases v with
  | null =>
    refine ⟨'n', ['u', 'l', 'l'], ?_, by decide, by decide, by decide⟩
    rw [renderJson, nullChars]
  | bool b =>
    cases b with
    | true =>
      refine ⟨'t', ['r', 'u', 'e'], ?_, by decide, by decide, by decide⟩
      rw [renderJson, trueChars]
    | false =>
      refine ⟨'f', ['a', 'l', 's', 'e'], ?_, by decide, by decide, by decide⟩
      rw [renderJson, falseChars]
  | num i =>
    by_cases hi : i < 0
    · refine ⟨'-', natDigits (-i).toNat, ?_, by decide, by decide, by decide⟩
      rw [renderJson, intChars, if_pos hi]
    · cases hnd : natDigits i.toNat with
      | nil => exact absurd hnd (natDigits_ne_nil _)
      | cons c t =>
        have hc : c.isDigit = true := natDigits_all_digit _ c (by rw [hnd]; simp)
        refine ⟨c, t, ?_, isDigit_not_ws hc, isDigit_ne _ hc (by decide),
          isDigit_ne _ hc (by decide)⟩
        rw [renderJson, intChars, if_neg hi, hnd]
  | str s =>
    refine ⟨'"', escapeList s.data ++ ['"'], ?_, by decide, by decide, by decide⟩
    rw [renderJson, renderStr]
  | arr xs =>
    cases xs with
    | nil =>
      refine ⟨'[', [']'], ?_, by decide, by decide, by decide⟩
      rw [renderJson]
    | cons x xs =>
      refine ⟨'[', renderJson x ++ (renderArrRest xs ++ [']']), ?_, by decide, by decide,
        by decide⟩
      rw [renderJson]
  | obj kvs =>
    cases kvs with
    | nil =>
      refine ⟨'{', ['}'], ?_, by decide, by decide, by decide⟩
      rw [renderJson]
    | cons kv rest =>
      obtain ⟨k, v⟩ := kv
      refine ⟨'{', renderMemberK k v ++ (renderObjRest rest ++ ['}']), ?_, by decide,
        by decide, by decide⟩
      rw [renderJson, renderMemberK]

lemma ndh_arrRest (xs : List JsonVal) (rest : List Char) :
    ndh (renderArrRest xs ++ (']' :: rest)) = true := by
  cases xs with
  | nil => rw [renderArrRest]; rfl
  | cons x xs => rw [renderArrRest]; rfl

lemma ndh_objRest (kvs : List (String × JsonVal)) (rest : List Char) :
    ndh (renderObjRest kvs ++ ('}' :: rest)) = true := by
  cases kvs with
  | nil => rw [renderObjRest]; rfl
  | cons kv kvs => obtain ⟨k, v⟩ := kv; rw [renderObjRest]; rfl

mutual

/-- Fuel sufficient for `pVal` to parse the rendering of a value. -/
def fuelOf : JsonVal → Nat
  | .null => 1
  | .bool _ => 1
  | .num _ => 1
  | .str _ => 1
  | .arr [] => 1
  | .arr (x :: xs) => fuelOf x + fuelArr xs + 2
  | .obj [] => 1
  | .obj ((_, v) :: kvs) => fuelOf v + fuelObj kvs + 3

/-- Fuel sufficient for `pArrRest` on the rendered tail of an array. -/
def fuelArr : List JsonVal → Nat
  | [] => 0
  | x :: xs => fuelOf x + fuelArr xs + 1

/-- Fuel sufficient for `pObjRest` on the rendered tail of an object. -/
def fuelObj : List (String × JsonVal) → Nat
  | [] => 0
  | (_, v) :: kvs => fuelOf v + fuelObj kvs + 2

end

lemma one_le_fuelOf (v : JsonVal) : 1 ≤ fuelOf v := by
  cases v with
  | null => rw [fuelOf]
  | bool b => rw [fuelOf]
  | num i => rw [fuelOf]
  | str s => rw [fuelOf]
  | arr xs =>
    cases xs with
    | nil => rw [fuelOf]
    | cons x xs => rw [fuelOf]; omega
  | obj kvs =>
    cases kvs with
    | nil => rw [fuelOf]
    | cons kv kvs => obtain ⟨k, v⟩ := kv; rw [fuelOf]; omega

lemma pVal_quote (fuel : Nat) (X : List Char) :
    pVal (fuel + 1) ('"' :: X) = (match pStrChars X with
      | some (s, r) => some (JsonVal.str (String.mk s), r)
      | none => none) := by
  rw [pVal, skipWs_cons_not (by decide)]
  rfl

lemma pVal_lbrack (fuel : Nat) (X : List Char) :
    pVal (fuel + 1) ('[' :: X) =
      (match skipWs X with
       | [] => none
       | d :: ds =>
         if d = ']' then some (.arr [], ds)
         else
           match pVal fuel (d :: ds) with
           | some (x, r) =>
             match pArrRest fuel r with
             | some (xs, r2) => some (.arr (x :: xs), r2)
             | none => none
           | none => none) := by
  rw [pVal, skipWs_cons_not (by decide)]
  rfl

lemma pVal_lbrace (fuel : Nat) (X : List Char) :
    pVal (fuel + 1) ('{' :: X) =
      (match skipWs X with
       | [] => none
       | d :: ds =>
         if d = '}' then some (.obj [], ds)
         else
           match pMember fuel (d :: ds) with
           | some (kv, r) =>
             match pObjRest fuel r with
             | some (kvs, r2) => some (.obj (kv :: kvs), r2)
             | none => none
           | none => none) := by
  rw [pVal, skipWs_cons_not (by decide)]
  rfl

lemma pVal_else (fuel : Nat) {c : Char} (X : List Char)
    (h1 : c ≠ '"') (h2 : c ≠ '[') (h3 : c ≠ '{') (h4 : c ≠ 'n') (h5 : c ≠ 't')
    (h6 : c ≠ 'f') (hw : isWsChar c = false) :
    pVal (fuel + 1) (c :: X) = pNum (c :: X) := by
  rw [pVal, skipWs_cons_not hw]
  simp [h1, h2, h3, h4, h5, h6]

lemma pArrRest_rbrack (fuel : Nat) (X : List Char) :
    pArrRest (fuel + 1) (']' :: X) = some ([], X) := by
  rw [pArrRest, skipWs_cons_not (by decide)]
  rfl

lemma pArrRest_comma (fuel : Nat) (X : List Char) :
    pArrRest (fuel + 1) (',' :: X) =
      (match pVal fuel X with
       | some (x, r) =>
         match pArrRest fuel r with
         | some (xs, r2) => some (x :: xs, r2)
         | none => none
       | none => none) := by
  rw [pArrRest, skipWs_cons_not (by decide)]
  rfl

lemma pObjRest_rbrace (fuel : Nat) (X : List Char) :
    pObjRest (fuel + 1) ('}' :: X) = some ([], X) := by
  rw [pObjRest, skipWs_cons_not (by decide)]
  rfl

lemma pObjRest_comma (fuel : Nat) (X : List Char) :
    pObjRest (fuel + 1) (',' :: X) =
      (match pMember fuel X with
       | some (kv, r) =>
         match pObjRest fuel r with
         | some (kvs, r2) => some (kv :: kvs, r2)
         | none => none
       | none => none) := by
  rw [pObjRest, skipWs_cons_not (by decide)]
  rfl

lemma pMember_quote (fuel : Nat) (X : List Char) :
    pMember (fuel + 1) ('"' :: X) =
      (match pStrChars X with
       | some (k, r) =>
         match skipWs r with
         | [] => none
         | d :: ds =>
           if d = ':' then
             match pVal fuel ds with
             | some (v, r2) => some ((String.mk k, v), r2)
             | none => none
           else none
       | none => none) := by
  rw [pMember, skipWs_cons_not (by decide)]
  rfl

/-- Main parser-correctness induction: on any rendered document followed by a
non-digit continuation, the parser with sufficient fuel returns exactly the
rendered value and the continuation. -/
theorem parse_render_all : ∀ fuel : Nat,
    (∀ v rest, fuelOf v ≤ fuel → ndh rest = true →
      pVal fuel (renderJson v ++ rest) = some (v, rest)) ∧
    (∀ xs rest, fuelArr xs + 1 ≤ fuel → ndh rest = true →
      pArrRest fuel (renderArrRest xs ++ (']' :: rest)) = some (xs, rest)) ∧
    (∀ kvs rest, fuelObj kvs + 1 ≤ fuel → ndh rest = true →
      pObjRest fuel (renderObjRest kvs ++ ('}' :: rest)) = some (kvs, rest)) ∧
    (∀ k v rest, fuelOf v + 1 ≤ fuel → ndh rest = true →
      pMember fuel (renderMemberK k v ++ rest) = some ((k, v), rest)) := by
  intro fuel
  induction fuel with
  | zero =>
    refine ⟨?_, ?_, ?_, ?_⟩
    · intro v rest hf _
      exact absurd hf (by have := one_le_fuelOf v; omega)
    · intro xs rest hf _
      exact absurd hf (by omega)
    · intro kvs rest hf _
      exact absurd hf (by omega)
    · intro k v rest hf _
      exact absurd hf (by omega)
  | succ fuel ih =>
    obtain ⟨ihP, ihQ, ihR, ihS⟩ := ih
    refine ⟨?_, ?_, ?_, ?_⟩
    · -- pVal on a rendered value
      intro v rest hf hr
      cases v with
      | null =>
        rw [renderJson, nullChars, pVal]
        simp only [List.cons_append, List.nil_append]
        rw [skipWs_cons_not (by decide)]
        rfl
      | bool b =>
        cases b with
        | true =>
          rw [renderJson, trueChars, pVal]
          simp only [List.cons_append, List.nil_append]
          rw [skipWs_cons_not (by decide)]
          rfl
        | false =>
          rw [renderJson, falseChars, pVal]
          simp only [List.cons_append, List.nil_append]
          rw [skipWs_cons_not (by decide)]
          rfl
      | num i =>
        rw [renderJson]
        by_cases hi : i < 0
        · have hic : intChars i = '-' :: natDigits (-i).toNat := by
            rw [intChars, if_pos hi]
          rw [hic, List.cons_append,
            pVal_else fuel _ (by decide) (by decide) (by decide) (by decide) (by decide)
              (by decide) (by decide)]
          rw [← List.cons_append, ← hic]
          exact pNum_intChars i rest hr
        · cases hnd : natDigits i.toNat with
          | nil => exact absurd hnd (natDigits_ne_nil _)
          | cons c t =>
            have hc : c.isDigit = true := natDigits_all_digit _ c (by rw [hnd]; simp)
            have hic : intChars i = c :: t := by rw [intChars, if_neg hi, hnd]
            rw [hic, List.cons_append,
              pVal_else fuel _ (isDigit_ne _ hc (by decide)) (isDigit_ne _ hc (by decide))
                (isDigit_ne _ hc (by decide)) (isDigit_ne _ hc (by decide))
                (isDigit_ne _ hc (by decide)) (isDigit_ne _ hc (by decide))
                (isDigit_not_ws hc)]
            rw [← List.cons_append, ← hic]
            exact pNum_intChars i rest hr
      | str s =>
        have hshape : renderJson (.str s) ++ rest
            = '"' :: (escapeList s.data ++ ('"' :: rest)) := by
          rw [renderJson, renderStr]
          simp
        rw [hshape, pVal_quote]
        simp only [esc_roundtrip]
      | arr xs =>
        cases xs with
        | nil =>
          rw [renderJson, pVal]
          simp only [List.cons_append, List.nil_append]
          rw [skipWs_cons_not (by decide)]
          rfl
        | cons x xs =>
          rw [fuelOf] at hf
          obtain ⟨c, t, hA, hw, hne1, _⟩ := render_head x
          have hshape : renderJson (.arr (x :: xs)) ++ rest
              = '[' :: (renderJson x ++ (renderArrRest xs ++ (']' :: rest))) := by
            rw [renderJson]
            simp
          rw [hshape, pVal_lbrack, hA]
          simp only [List.cons_append]
          rw [skipWs_cons_not hw]
          simp only [if_neg hne1]
          rw [← List.cons_append, ← hA]
          have h2 := ihP x (renderArrRest xs ++ (']' :: rest)) (by omega)
            (ndh_arrRest xs rest)
          simp only [h2]
          have h4 := ihQ xs rest (by omega) hr
          simp only [h4]
      | obj kvs =>
        cases kvs with
        | nil =>
          rw [renderJson, pVal]
          simp only [List.cons_append, List.nil_append]
          rw [skipWs_cons_not (by decide)]
          rfl
        | cons kv kvs =>
          obtain ⟨k, v⟩ := kv
          rw [fuelOf] at hf
          have hshape : renderJson (.obj ((k, v) :: kvs)) ++ rest
              = '{' :: (renderMemberK k v ++ (renderObjRest kvs ++ ('}' :: rest))) := by
            rw [renderJson, renderMemberK]
            simp
          have hm : renderMemberK k v ++ (renderObjRest kvs ++ ('}' :: rest))
              = '"' :: (escapeList k.data
                  ++ ('"' :: (':' :: ' ' :: (renderJson v
                      ++ (renderObjRest kvs ++ ('}' :: rest)))))) := by
            rw [renderMemberK, renderStr]
            simp
          rw [hshape, pVal_lbrace, hm]
          rw [skipWs_cons_not (by decide)]
          simp only [if_neg (show ('"' : Char) ≠ '}' by decide)]
          rw [← hm]
          have h2 := ihS k v (renderObjRest kvs ++ ('}' :: rest)) (by omega)
            (ndh_objRest kvs rest)
          simp only [h2]
          have h4 := ihR kvs rest (by omega) hr
          simp only [h4]
    · -- pArrRest on a rendered array tail
      intro xs rest hf hr
      cases xs with
      | nil =>
        rw [renderArrRest]
        simp only [List.nil_append]
        rw [pArrRest_rbrack]
      | cons x xs =>
        rw [fuelArr] at hf
        have := one_le_fuelOf x
        have hshape : renderArrRest (x :: xs) ++ (']' :: rest)
            = ',' :: ' ' :: (renderJson x ++ (renderArrRest xs ++ (']' :: rest))) := by
          rw [renderArrRest]
          simp
        rw [hshape, pArrRest_comma]
        rw [pVal_ws_cons fuel (by decide)]
        have h2 := ihP x (renderArrRest xs ++ (']' :: rest)) (by omega)
          (ndh_arrRest xs rest)
        simp only [h2]
        have h4 := ihQ xs rest (by omega) hr
        simp only [h4]
    · -- pObjRest on a rendered object tail
      intro kvs rest hf hr
      cases kvs with
      | nil =>
        rw [renderObjRest]
        simp only [List.nil_append]
        rw [pObjRest_rbrace]
      | cons kv kvs =>
        obtain ⟨k, v⟩ := kv
        rw [fuelObj] at hf
        have := one_le_fuelOf v
        have hshape : renderObjRest ((k, v) :: kvs) ++ ('}' :: rest)
            = ',' :: ' ' :: (renderMemberK k v ++ (renderObjRest kvs ++ ('}' :: rest))) := by
          rw [renderObjRest, renderMemberK]
          simp
        rw [hshape, pObjRest_comma]
        rw [pMember_ws_cons fuel (by decide)]
        have h2 := ihS k v (renderObjRest kvs ++ ('}' :: rest)) (by omega)
          (ndh_objRest kvs rest)
        simp only [h2]
        have h4 := ihR kvs rest (by omega) hr
        simp only [h4]
    · -- pMember on a rendered member
      intro k v rest hf hr
      have hm : renderMemberK k v ++ rest
          = '"' :: (escapeList k.data ++ ('"' :: (':' :: ' ' :: (renderJson v ++ rest)))) := by
        rw [renderMemberK, renderStr]
        simp
      rw [hm, pMember_quote]
      simp only [esc_roundtrip]
      rw [skipWs_cons_not (by decide)]
      simp only [if_pos rfl]
      rw [pVal_ws_cons fuel (by decide)]
      have h2 := ihP v rest (by omega) hr
      simp only [h2]
      rfl

/-- The fuel needed to parse a rendered value is at most its length plus one. -/
theorem fuel_le_len : ∀ n : Nat,
    (∀ v, fuelOf v = n → fuelOf v ≤ (renderJson v).length + 1) ∧
    (∀ xs, fuelArr xs = n → fuelArr xs ≤ (renderArrRest xs).length) ∧
    (∀ kvs, fuelObj kvs = n → fuelObj kvs ≤ (renderObjRest kvs).length) := by
  intro n
  induction n using Nat.strong_induction_on with
  | _ n ih =>
    refine ⟨?_, ?_, ?_⟩
    · intro v hv
      cases v with
      | null => rw [fuelOf]; omega
      | bool b => rw [fuelOf]; omega
      | num i => rw [fuelOf]; omega
      | str s => rw [fuelOf]; omega
      | arr xs =>
        cases xs with
        | nil => rw [fuelOf]; omega
        | cons x xs =>
          have e : fuelOf (.arr (x :: xs)) = fuelOf x + fuelArr xs + 2 := by rw [fuelOf]
          rw [e] at hv
          have h1 := (ih (fuelOf x) (by omega)).1 x rfl
          have h2 := (ih (fuelArr xs) (by omega)).2.1 xs rfl
          have hl : (renderJson (.arr (x :: xs))).length
              = (renderJson x).length + (renderArrRest xs).length + 2 := by
            rw [renderJson]
            simp [List.length_append]
            omega
          rw [e, hl]
          omega
      | obj kvs =>
        cases kvs with
        | nil => rw [fuelOf]; omega
        | cons kv kvs =>
          obtain ⟨k, v⟩ := kv
          have e : fuelOf (.obj ((k, v) :: kvs)) = fuelOf v + fuelObj kvs + 3 := by
            rw [fuelOf]
          rw [e] at hv
          have h1 := (ih (fuelOf v) (by omega)).1 v rfl
          have h2 := (ih (fuelObj kvs) (by omega)).2.2 kvs rfl
          have hm : (renderMemberK k v).length
              = (escapeList k.data).length + (renderJson v).length + 4 := by
            rw [renderMemberK, renderStr]
            simp [List.length_append]
            omega
          have hl : (renderJson (.obj ((k, v) :: kvs))).length
              = (renderMemberK k v).length + (renderObjRest kvs).length + 2 := by
            rw [renderJson_obj_cons]
            simp [List.length_append]
            omega
          rw [e, hl, hm]
          omega
    · intro xs hxs
      cases xs with
      | nil => rw [fuelArr, renderArrRest]; simp
      | cons x xs =>
        have e : fuelArr (x :: xs) = fuelOf x + fuelArr xs + 1 := by rw [fuelArr]
        rw [e] at hxs
        have h1 := (ih (fuelOf x) (by omega)).1 x rfl
        have h2 := (ih (fuelArr xs) (by omega)).2.1 xs rfl
        have hl : (renderArrRest (x :: xs)).length
            = (renderJson x).length + (renderArrRest xs).length + 2 := by
          rw [renderArrRest]
          simp [List.length_append]
        rw [e, hl]
        omega
    · intro kvs hkvs
      cases kvs with
      | nil => rw [fuelObj, renderObjRest]; simp
      | cons kv kvs =>
        obtain ⟨k, v⟩ := kv
        have e : fuelObj ((k, v) :: kvs) = fuelOf v + fuelObj kvs + 2 := by rw [fuelObj]
        rw [e] at hkvs
        have h1 := (ih (fuelOf v) (by omega)).1 v rfl
        have h2 := (ih (fuelObj kvs) (by omega)).2.2 kvs rfl
        have hm : (renderMemberK k v).length
            = (escapeList k.data).length + (renderJson v).length + 4 := by
          rw [renderMemberK, renderStr]
          simp [List.length_append]
          omega
        have hl : (renderObjRest ((k, v) :: kvs)).length
            = (renderMemberK k v).length + (renderObjRest kvs).length + 2 := by
          rw [renderObjRest_cons]
          simp [List.length_append]
        rw [e, hl, hm]
        omega

/-- Round trip: `json.loads` recovers exactly the value `json.dump` wrote. -/
theorem json_loads_dumps (v : JsonVal) : json_loads (jsonDumps v) = some v := by
  have hb : fuelOf v ≤ (renderJson v).length + 1 := (fuel_le_len (fuelOf v)).1 v rfl
  have h := (parse_render_all ((renderJson v).length + 1)).1 v [] hb rfl
  rw [List.append_nil] at h
  have hgoal : json_loads (jsonDumps v)
      = (match pVal ((renderJson v).length + 1) (renderJson v) with
         | some (w, r) =>
           match skipWs r with
           | [] => some w
           | _ :: _ => none
         | none => none) := rfl
  rw [hgoal, h]
  rfl

/-! ### The program's state: files, Python dictionaries, Python errors -/

/-- The Python exceptions the program can raise in the embedded fragment.
`cacheCorrupt` stands for `json.JSONDecodeError` at cache load time. -/
inductive PyErr where
  | cacheCorrupt : PyErr
  | typeError : PyErr
  | keyError : PyErr
  | attributeError : PyErr
deriving DecidableEq

/-- The file system: an association list from filename to file contents. -/
abbrev FS := List (String × String)

/-- Contents of a file, `none` when the file does not exist. -/
def fsGet : FS → String → Option String
  | [], _ => none
  | (n, c) :: t, name => if n = name then some c else fsGet t name

/-- Create or overwrite a file. -/
def fsSet : FS → String → String → FS
  | [], name, c => [(name, c)]
  | (n, d) :: t, name, c => if n = name then (name, c) :: t else (n, d) :: fsSet t name c

/-- Python dict lookup (a JSON-document dict has at most one binding per key). -/
def dictGet : List (String × JsonVal) → String → Option JsonVal
  | [], _ => none
  | (k, v) :: t, key => if k = key then some v else dictGet t key

/-- Python `d[key] = v`: update in place, else append (insertion order kept). -/
def dictSet : List (String × JsonVal) → String → JsonVal → List (String × JsonVal)
  | [], key, v => [(key, v)]
  | (k, w) :: t, key, v => if k = key then (key, v) :: t else (k, w) :: dictSet t key v

/-- `needle` is a leading segment of `hay`. -/
def isStartOf (needle hay : List Char) : Bool :=
  match needle, hay with
  | [], _ => true
  | n :: ns, h :: hs => n = h && isStartOf ns hs
  | _ :: _, [] => false

/-- `needle` occurs contiguously in `hay` (Python `in` on strings). -/
def strContains : List Char → List Char → Bool
  | [], needle => isStartOf needle []
  | c :: t, needle => isStartOf needle (c :: t) || strContains t needle

/-- Python `len`: defined on dict, list, str; `TypeError` otherwise. -/
def pyLen : JsonVal → Except PyErr Nat
  | .obj kvs => .ok kvs.length
  | .arr xs => .ok xs.length
  | .str s => .ok s.length
  | _ => .error .typeError

/-- Python `key in doc` for a string key: dict key membership; list element
equality (a `str` key equals only an equal `str` element); substring test on
`str`; `TypeError` on the other JSON shapes. -/
def pyContains (j : JsonVal) (key : String) : Except PyErr Bool :=
  match j with
  | .obj kvs => .ok (dictGet kvs key).isSome
  | .arr xs => .ok (xs.any fun x => match x with | .str s => s == key | _ => false)
  | .str s => .ok (strContains s.data key.data)
  | _ => .error .typeError

/-- Python `doc[key]` for a string key: dict lookup (`KeyError` when absent);
`TypeError` on every other shape (list and str need integer indices). -/
def pySubscript (j : JsonVal) (key : String) : Except PyErr JsonVal :=
  match j with
  | .obj kvs =>
    match dictGet kvs key with
    | some v => .ok v
    | none => .error .keyError
  | _ => .error .typeError

/-- Python `doc[key] = v` for a string key. -/
def pySetItem (j : JsonVal) (key : String) (v : JsonVal) : Except PyErr JsonVal :=
  match j with
  | .obj kvs => .ok (.obj (dictSet kvs key v))
  | _ => .error .typeError

/-- Attribute access on the result of a BeautifulSoup `find`: accessing
`.text` (or `.find`) on `None` raises `AttributeError`. -/
def pyAttr {α : Type} : Option α → Except PyErr α
  | some a => .ok a
  | none => .error .attributeError

/-- Reading one of the five stored Site fields back as a string.  The program
only ever writes string fields (`NationalSite` carries `String` fields);
Python's untyped constructor would pass a non-string stored value through
unchanged, a shape outside every claim's hypotheses. -/
def asStr : JsonVal → Except PyErr String
  | .str s => .ok s
  | _ => .error .typeError

/-- `c[name]` read as a string field of a stored site record. -/
def readField (c : JsonVal) (name : String) : Except PyErr String :=
  match pySubscript c name with
  | .error e => .error e
  | .ok v => asStr v

/-- Python `str.strip()` (over the ASCII whitespace the scraped fields
contain). -/
def pyStrip (s : String) : String :=
  String.mk (((s.data.dropWhile isWsChar).reverse.dropWhile isWsChar).reverse)

/-- Python `str.lower()` (over the ASCII state names the program handles). -/
def pyLower (s : String) : String := String.mk (s.data.map Char.toLower)

/-- Python `str.startswith(pre)`. -/
def pyStartswith (s pre : String) : Bool := isStartOf pre.data s.data

/-! ### The cache primitives (source lines 47-58) -/

/-- `openCache(filename)` (lines 47-51): returns `{}` when the file does not
exist; otherwise `json.load(f)`, which raises (`CacheCorrupt`) exactly when
the stored bytes are not valid JSON — the loaded document is returned
whatever its shape. -/
def openCache (fs : FS) (filename : String) : Except PyErr JsonVal :=
  match fsGet fs filename with
  | none => .ok (.obj [])
  | some doc =>
    match json_loads doc with
    | some v => .ok v
    | none => .error .cacheCorrupt

/-- `closeCache(cache, filename)` (lines 54-58): `open(filename, "w")` then
`json.dump(cache, f)` — the file ends up holding the full serialization. -/
def closeCache (cache : JsonVal) (filename : String) (fs : FS) : FS :=
  fsSet fs filename (jsonDumps cache)

/-- The successive on-disk contents of the cache file during
`closeCache(cache, filename)`: the previous contents (before `open`), then —
because `open(filename, "w")` truncates in place and `json.dump` streams the
serialization — every prefix of the new document, ending with the complete
document.  A crash observes one of these states. -/
def writeStates : List Char → List (List Char)
  | [] => [[]]
  | c :: t => [] :: (writeStates t).map (fun p => c :: p)

/-- All file states a crash during `closeCache` can leave behind. -/
def closeCacheFileStates (cache : JsonVal) (old : String) : List String :=
  old :: (writeStates (renderJson cache)).map String.mk

/-! ### The scraped-page data model (the external page-parser capability) -/

/-- The structured address block `<p class="adr">` of a detail page: the
three `itemprop` spans the program reads, each possibly absent. -/
structure AdrBlock where
  addressLocality : Option String
  addressRegion : Option String
  postalCode : Option String

/-- The parsed content of one site detail page, reduced to the fields the
program reads.  Each `Option` collapses the chain of BeautifulSoup `find`
calls producing that text: a `none` makes the corresponding `.text` access
raise `AttributeError`, exactly as any link of the chain being absent
would. -/
structure DetailPage where
  heroName : Option String
  heroDesignation : Option String
  adr : Option AdrBlock
  telephone : Option String

/-- One `<li class="clearfix">` block of a state page: its `id` attribute
(`block.get("id")`, `None` when absent) and the nested detail link
(`block.find("div").find("h3").find("a")["href"]`, `none` when the chain is
broken). -/
structure StateBlock where
  id : Option String
  href : Option String

/-- A national site (source lines 14-44). -/
structure NationalSite where
  category : String
  name : String
  address : String
  zipcode : String
  phone : String
deriving DecidableEq

/-- `NationalSite.info` (line 43). -/
def NationalSite.info (ns : NationalSite) : String :=
  ns.name ++ " (" ++ ns.category ++ "): " ++ ns.address ++ " " ++ ns.zipcode

/-! ### The four resolvers (source lines 61-208) -/

/-- One `<area>` region of the national directory page. -/
structure Area where
  alt : String
  href : String

/-- The `rd[state] = link` loop of `build_state_url_dict` (lines 86-90). -/
def buildRD : List Area → List (String × JsonVal) → List (String × JsonVal)
  | [], rd => rd
  | a :: rest, rd =>
    buildRD rest (dictSet rd (pyLower a.alt) (.str ("https://www.nps.gov" ++ a.href)))

/-- `build_state_url_dict()` (lines 61-93).  `page` is the parsed national
directory page the fetch would return; the returned `Bool` records whether
the fetch was issued. -/
def build_state_url_dict (page : List Area) (fs : FS) :
    Except PyErr (JsonVal × FS × Bool) :=
  match openCache fs "STATE_URL_DICT.json" with
  | .error e => .error e
  | .ok cache =>
    match pyLen cache with
    | .error e => .error e
    | .ok n =>
      if n ≠ 0 then .ok (cache, fs, false)
      else
        let rd : JsonVal := .obj (buildRD page [])
        .ok (rd, closeCache rd "STATE_URL_DICT.json" fs, true)

/-- `get_site_instance(site_url)` (lines 96-135).  `pages` maps a URL to the
parsed detail page its fetch would return; the returned `Bool` records
whether the fetch was issued.  The computation follows the source line by
line: cache hit reconstructs from the five stored fields; on a miss the
title fields are read first, then the address block is tested, and a missing
address block returns `None` without touching the cache file. -/
def get_site_instance (pages : String → DetailPage) (site_url : String) (fs : FS) :
    Except PyErr (Option NationalSite × FS × Bool) :=
  match openCache fs "SITE_URL_DICT.json" with
  | .error e => .error e
  | .ok cache =>
    match pyContains cache site_url with
    | .error e => .error e
    | .ok true =>
      match pySubscript cache site_url with
      | .error e => .error e
      | .ok c =>
        match readField c "category" with
        | .error e => .error e
        | .ok category =>
          match readField c "name" with
          | .error e => .error e
          | .ok name =>
            match readField c "address" with
            | .error e => .error e
            | .ok address =>
              match readField c "zipcode" with
              | .error e => .error e
              | .ok zipcode =>
                match readField c "phone" with
                | .error e => .error e
                | .ok phone =>
                  .ok (some ⟨category, name, address, zipcode, phone⟩, fs, false)
    | .ok false =>
      let page := pages site_url
      match pyAttr page.heroName with
      | .error e => .error e
      | .ok name =>
        match pyAttr page.heroDesignation with
        | .error e => .error e
        | .ok category =>
          match page.adr with
          | none => .ok (none, fs, true)
          | some adr =>
            match pyAttr adr.postalCode with
            | .error e => .error e
            | .ok postal =>
              let zip_code := pyStrip postal
              match pyAttr adr.addressLocality with
              | .error e => .error e
              | .ok addr =>
                match pyAttr adr.addressRegion with
                | .error e => .error e
                | .ok state =>
                  let address := addr ++ ", " ++ pyStrip state
                  match pyAttr page.telephone with
                  | .error e => .error e
                  | .ok tel =>
                    let telephone := pyStrip tel
                    match pySetItem cache site_url (.obj
                        [("category", .str category), ("name", .str name),
                         ("address", .str address), ("zipcode", .str zip_code),
                         ("phone", .str telephone)]) with
                    | .error e => .error e
                    | .ok cache2 =>
                      .ok (some ⟨category, name, address, zip_code, telephone⟩,
                        closeCache cache2 "SITE_URL_DICT.json" fs, true)

/-- `get_sites_for_state(state_url)` (lines 138-171): iterate the parsed
state-page blocks in document order, skip blocks without an `asset`-starting
`id`, resolve each kept block's detail link through `get_site_instance`, and
append every non-`None` result (the loop's appends are rendered as the
recursion's cons). -/
def get_sites_for_state (pages : String → DetailPage) :
    List StateBlock → FS → Except PyErr (List NationalSite × FS)
  | [], fs => .ok ([], fs)
  | b :: bs, fs =>
    match b.id with
    | none => get_sites_for_state pages bs fs
    | some i =>
      if pyStartswith i "asset" then
        match b.href with
        | none => .error .attributeError
        | some href =>
          match get_site_instance pages ("https://www.nps.gov" ++ href) fs with
          | .error e => .error e
          | .ok (nsOpt, fs2, _) =>
            match get_sites_for_state pages bs fs2 with
            | .error e => .error e
            | .ok (others, fs3) =>
              match nsOpt with
              | some ns => .ok (ns :: others, fs3)
              | none => .ok (others, fs3)
      else get_sites_for_state pages bs fs

/-- A block is an asset entry: it has an `id` starting with `"asset"`. -/
def isAssetBlock (b : StateBlock) : Bool :=
  match b.id with
  | some i => pyStartswith i "asset"
  | none => false

/-- Resolving every block of a list in document order, keeping a `none`
placeholder for each entry whose resolution yields no site (the
specification's view of the catalog, to be compared with
`get_sites_for_state`). -/
def resolveAll (pages : String → DetailPage) :
    List StateBlock → FS → Except PyErr (List (Option NationalSite) × FS)
  | [], fs => .ok ([], fs)
  | b :: bs, fs =>
    match b.href with
    | none => .error .attributeError
    | some href =>
      match get_site_instance pages ("https://www.nps.gov" ++ href) fs with
      | .error e => .error e
      | .ok (nsOpt, fs2, _) =>
        match resolveAll pages bs fs2 with
        | .error e => .error e
        | .ok (rest, fs3) => .ok (nsOpt :: rest, fs3)

/-- The radius-search request URL (lines 193-201), parameters in source
order with the fixed values radius 10, maxMatches 10, ambiguities ignore,
outFormat json. -/
def mapquestURL (key origin : String) : String :=
  "http://www.mapquestapi.com/search/v2/radius" ++ "?" ++ "key=" ++ key
    ++ "&maxMatches=" ++ toString (10 : Nat) ++ "&origin=" ++ origin
    ++ "&radius=" ++ toString (10 : Nat) ++ "&ambiguities=" ++ "ignore"
    ++ "&outFormat=" ++ "json"

/-- `get_nearby_places(site_object)` (lines 174-208).  `api` maps the request
URL to the decoded JSON response its fetch would return; the returned `Bool`
records whether the network request was issued. -/
def get_nearby_places (api : String → JsonVal) (key : String) (site : NationalSite)
    (fs : FS) : Except PyErr (JsonVal × FS × Bool) :=
  match openCache fs "NEARBY_PLACES.json" with
  | .error e => .error e
  | .ok cache =>
    match pyContains cache site.zipcode with
    | .error e => .error e
    | .ok true =>
      match pySubscript cache site.zipcode with
      | .error e => .error e
      | .ok d => .ok (d, fs, false)
    | .ok false =>
      let d := api (mapquestURL key site.zipcode)
      match pySetItem cache site.zipcode d with
      | .error e => .error e
      | .ok cache2 => .ok (d, closeCache cache2 "NEARBY_PLACES.json" fs, true)

/-! ### The interactive selection step (source lines 234-238) -/

/-- Outcome of one numeric selection in the inner loop: `invalid` is the
locally caught `ValueError` (the "[Error] Invalid input" message),
`crashIndexError` is an uncaught `IndexError` (the `except` clause catches
only `ValueError`), `selected` is a successful lookup. -/
inductive SelOutcome (α : Type) where
  | invalid : SelOutcome α
  | crashIndexError : SelOutcome α
  | selected (x : α) : SelOutcome α
deriving DecidableEq

/-- Python `int(token)` on a stripped token: an optional sign followed by
decimal digits (underscore separators and non-ASCII digits are out of
scope). -/
def pyIntAux (ds : List Char) : Option Nat :=
  if ds = [] then none
  else if ds.all Char.isDigit then
    some (ds.foldl (fun a c => 10 * a + digitVal c) 0)
  else none

/-- Python `int(token)`; `none` is the `ValueError` case. -/
def pyInt (s : String) : Option Int :=
  match s.data with
  | '-' :: ds => (pyIntAux ds).map fun n => -(n : Int)
  | '+' :: ds => (pyIntAux ds).map fun n => (n : Int)
  | ds => (pyIntAux ds).map fun n => (n : Int)

/-- Python list indexing `xs[i]`: a negative index is shifted once by the
length; an index still negative or past the end raises `IndexError`
(`none`). -/
def pyIndex {α : Type} (xs : List α) (i : Int) : Option α :=
  let j := if i < 0 then i + xs.length else i
  if 0 ≤ j then xs[j.toNat]? else none

/-- Lines 236-238 after `int(token)` succeeded: `id > len(nationalStates)`
raises the locally caught `ValueError`; otherwise `nationalStates[id - 1]`
is read with Python indexing, and an out-of-range index is an uncaught
`IndexError`. -/
def selectSiteInt {α : Type} (sites : List α) (id : Int) : SelOutcome α :=
  if id > (sites.length : Int) then .invalid
  else
    match pyIndex sites (id - 1) with
    | some x => .selected x
    | none => .crashIndexError

/-- One numeric-token selection step (lines 234-238): `int(token)` plus
`selectSiteInt`. -/
def selectSite {α : Type} (sites : List α) (token : String) : SelOutcome α :=
  match pyInt token with
  | none => .invalid
  | some id => selectSiteInt sites id

/-! ### Supporting lemmas for the claims -/

/-- A JSON document of the shape every cache domain expects (a mapping). -/
def isObjDoc : JsonVal → Bool
  | .obj _ => true
  | _ => false

lemma fsGet_fsSet_self (fs : FS) (name c : String) :
    fsGet (fsSet fs name c) name = some c := by
  induction fs with
  | nil => simp [fsSet, fsGet]
  | cons p t ih =>
    obtain ⟨n, d⟩ := p
    by_cases h : n = name
    · subst h
      simp [fsSet, fsGet]
    · simp [fsSet, fsGet, h, ih]

lemma dictGet_dictSet_self (kvs : List (String × JsonVal)) (key : String) (v : JsonVal) :
    dictGet (dictSet kvs key v) key = some v := by
  induction kvs with
  | nil => simp [dictSet, dictGet]
  | cons p t ih =>
    obtain ⟨k, w⟩ := p
    by_cases h : k = key
    · subst h
      simp [dictSet, dictGet]
    · simp [dictSet, dictGet, h, ih]

/-- Writing a cache document and reading the same filename back yields the
document, whatever else the file system holds. -/
lemma openCache_closeCache (cache : JsonVal) (filename : String) (fs : FS) :
    openCache (closeCache cache filename fs) filename = .ok cache := by
  unfold openCache closeCache
  simp only [fsGet_fsSet_self, json_loads_dumps]

lemma writeStates_ne_nil : ∀ l : List Char, writeStates l ≠ [] := by
  intro l
  cases l <;> simp [writeStates]

lemma getLast?_cons_of_ne_nil {α : Type} (a : α) {l : List α} (h : l ≠ []) :
    (a :: l).getLast? = l.getLast? := by
  cases l with
  | nil => exact absurd rfl h
  | cons b t => exact List.getLast?_cons_cons

lemma list_getLast?_map {α β : Type} (f : α → β) :
    ∀ l : List α, (l.map f).getLast? = (l.getLast?).map f := by
  intro l
  induction l with
  | nil => rfl
  | cons a t ih =>
    cases t with
    | nil => rfl
    | cons b t2 =>
      have h1 : (a :: b :: t2).getLast? = (b :: t2).getLast? := List.getLast?_cons_cons
      have h2 : (List.map f (a :: b :: t2)).getLast? = (List.map f (b :: t2)).getLast? := by
        rw [List.map_cons, List.map_cons]
        exact List.getLast?_cons_cons
      rw [h1, h2]
      exact ih

lemma getLast?_writeStates : ∀ l : List Char, (writeStates l).getLast? = some l := by
  intro l
  induction l with
  | nil => rfl
  | cons c t ih =>
    rw [writeStates]
    have hm : (writeStates t).map (fun p => c :: p) ≠ [] := by
      intro h
      exact writeStates_ne_nil t (List.map_eq_nil_iff.1 h)
    rw [getLast?_cons_of_ne_nil _ hm, list_getLast?_map, ih]
    rfl

lemma mem_writeStates : ∀ (l : List Char) (s : List Char),
    s ∈ writeStates l → isStartOf s l = true := by
  intro l
  induction l with
  | nil =>
    intro s hs
    simp [writeStates] at hs
    subst hs
    rfl
  | cons c t ih =>
    intro s hs
    rw [writeStates] at hs
    rcases List.mem_cons.1 hs with h | h
    · subst h
      rfl
    · obtain ⟨p, hp, rfl⟩ := List.mem_map.1 h
      have := ih p hp
      simp [isStartOf, this]

lemma dropWhile_head_not {p : Char → Bool} : ∀ (l : List Char) (c : Char),
    (l.dropWhile p).head? = some c → p c = false := by
  intro l
  induction l with
  | nil =>
    intro c h
    simp [List.dropWhile] at h
  | cons a t ih =>
    intro c h
    by_cases hp : p a
    · rw [List.dropWhile_cons] at h
      simp only [hp, if_pos] at h
      exact ih c h
    · rw [List.dropWhile_cons] at h
      simp only [hp, if_neg, Bool.false_eq_true, List.head?_cons] at h
      cases h
      simpa using hp

lemma dropWhile_append_single {p : Char → Bool} {c : Char} (hc : p c = false) :
    ∀ u : List Char, (u ++ [c]).dropWhile p = u.dropWhile p ++ [c] := by
  intro u
  induction u with
  | nil => simp [List.dropWhile_cons, hc]
  | cons a t ih =>
    by_cases hp : p a
    · simp [List.dropWhile_cons, hp, ih]
    · simp [List.dropWhile_cons, hp]

lemma pyStrip_tail_not_ws (s : String) :
    ∀ c, (pyStrip s).data.reverse.head? = some c → isWsChar c = false := by
  intro c h
  have hd : (pyStrip s).data
      = ((s.data.dropWhile isWsChar).reverse.dropWhile isWsChar).reverse := rfl
  rw [hd, List.reverse_reverse] at h
  exact dropWhile_head_not _ c h

lemma pyStrip_head_not_ws (s : String) :
    ∀ c, (pyStrip s).data.head? = some c → isWsChar c = false := by
  intro c h
  have hd : (pyStrip s).data
      = ((s.data.dropWhile isWsChar).reverse.dropWhile isWsChar).reverse := rfl
  rw [hd] at h
  cases hk : s.data.dropWhile isWsChar with
  | nil =>
    rw [hk] at h
    simp at h
  | cons c0 k =>
    have hc0 : isWsChar c0 = false := dropWhile_head_not s.data c0 (by rw [hk]; rfl)
    rw [hk, List.reverse_cons, dropWhile_append_single hc0, List.reverse_append] at h
    simp at h
    rw [← h]
    exact hc0

/-! ### The claims -/

/-- C1 — counterexample to the claim as stated: `closeCache` overwrites the
file in place, so a crash mid-write can observe the truncated (empty) file,
which is neither the previous document `"{}"` nor the new complete
document. -/
theorem claim_C1_counterexample :
    ¬ (∀ s ∈ closeCacheFileStates (.obj [("a", .str "b")]) "\x7b\x7d",
        s = "\x7b\x7d" ∨ s = jsonDumps (.obj [("a", .str "b")])) := by
  intro h
  have hmem : "" ∈ closeCacheFileStates (.obj [("a", .str "b")]) "\x7b\x7d" := by decide
  rcases h "" hmem with h1 | h1
  · exact absurd h1 (by decide)
  · have he : jsonDumps (.obj [("a", .str "b")]) = "\x7b\"a\": \"b\"\x7d" := rfl
    rw [he] at h1
    exact absurd h1 (by decide)

/-- C1 (amended): `closeCache` serializes the entire cache and replaces the
stored document, but not atomically: it truncates the file and streams the
new serialization, so the completed write leaves exactly the new complete
document, while a crash mid-write leaves either the previous document
(before the truncating `open`) or some prefix of the new document (possibly
empty), never anything else. -/
theorem claim_C1 (cache : JsonVal) (old : String) :
    (closeCacheFileStates cache old).getLast? = some (jsonDumps cache) ∧
    ∀ s ∈ closeCacheFileStates cache old,
      s = old ∨ isStartOf s.data (jsonDumps cache).data = true := by
  constructor
  · rw [closeCacheFileStates]
    have hm : (writeStates (renderJson cache)).map String.mk ≠ [] := by
      intro h
      exact writeStates_ne_nil _ (List.map_eq_nil_iff.1 h)
    rw [getLast?_cons_of_ne_nil _ hm, list_getLast?_map, getLast?_writeStates]
    rfl
  · intro s hs
    rw [closeCacheFileStates] at hs
    rcases List.mem_cons.1 hs with h | h
    · exact Or.inl h
    · obtain ⟨p, hp, rfl⟩ := List.mem_map.1 h
      exact Or.inr (mem_writeStates _ p hp)

/-- C1 witness: at a concrete cache and previous document, the final write
state is the complete new document, and the truncated state `""` the crash
can observe is a prefix of the new document. -/
theorem claim_C1_witness :
    (closeCacheFileStates (.obj [("a", .str "b")]) "\x7b\x7d").getLast?
        = some (jsonDumps (.obj [("a", .str "b")])) ∧
    ("" = "\x7b\x7d" ∨ isStartOf "".data (jsonDumps (.obj [("a", .str "b")])).data = true) :=
  ⟨(claim_C1 (.obj [("a", .str "b")]) "\x7b\x7d").1,
    (claim_C1 (.obj [("a", .str "b")]) "\x7b\x7d").2 "" (by decide)⟩

/-- C2: cache round-trip — writing any cache mapping with `closeCache` and
then reading the same filename with `openCache` yields the same mapping,
over any prior file-system contents. -/
theorem claim_C2 (kvs : List (String × JsonVal)) (filename : String) (fs : FS) :
    openCache (closeCache (.obj kvs) filename fs) filename = .ok (.obj kvs) :=
  openCache_closeCache (.obj kvs) filename fs

/-- C8 — counterexample to the claim as stated: bytes that are valid JSON of
the wrong shape (here a JSON array, where every cache domain expects a
mapping) are *not* rejected: `openCache` returns the loaded array without a
`CacheCorrupt` error, because `json.load` checks syntax only, never the
domain's expected shape. -/
theorem claim_C8_counterexample :
    fsGet [("NEARBY_PLACES.json", "[1, 2]")] "NEARBY_PLACES.json" = some "[1, 2]" ∧
    json_loads "[1, 2]" = some (.arr [.num 1, .num 2]) ∧
    isObjDoc (.arr [.num 1, .num 2]) = false ∧
    openCache [("NEARBY_PLACES.json", "[1, 2]")] "NEARBY_PLACES.json"
      = .ok (.arr [.num 1, .num 2]) :=
  ⟨rfl, rfl, rfl, rfl⟩

/-- C8 (amended): `openCache` returns the empty mapping when the domain's
stored document is absent, and fails — always with `CacheCorrupt`, never a
partial or default mapping — exactly when the stored bytes are not valid
JSON; a valid JSON document is returned as loaded, its shape unchecked. -/
theorem claim_C8 (fs : FS) (filename : String) :
    (fsGet fs filename = none → openCache fs filename = .ok (.obj [])) ∧
    (∀ doc, fsGet fs filename = some doc →
      ((openCache fs filename = .error .cacheCorrupt) ↔ json_loads doc = none) ∧
      (∀ v, json_loads doc = some v → openCache fs filename = .ok v)) ∧
    (∀ e, openCache fs filename = .error e → e = .cacheCorrupt) := by
  refine ⟨?_, ?_, ?_⟩
  · intro h
    unfold openCache
    rw [h]
  · intro doc hdoc
    constructor
    · unfold openCache
      cases hj : json_loads doc with
      | none => simp [hdoc, hj]
      | some v => simp [hdoc, hj]
    · intro v hv
      unfold openCache
      simp [hdoc, hv]
  · intro e he
    unfold openCache at he
    cases hg : fsGet fs filename with
    | none =>
      rw [hg] at he
      cases he
    | some doc =>
      cases hj : json_loads doc with
      | none =>
        simp [hg, hj] at he
        exact he.symm
      | some v =>
        simp [hg, hj] at he

/-- C8 witness: an absent file yields the empty mapping, and concretely
corrupt bytes (`"{"`) yield `CacheCorrupt`. -/
theorem claim_C8_witness :
    openCache [] "STATE_URL_DICT.json" = .ok (.obj []) ∧
    openCache [("STATE_URL_DICT.json", "\x7b")] "STATE_URL_DICT.json"
      = .error .cacheCorrupt :=
  ⟨(claim_C8 [] "STATE_URL_DICT.json").1 rfl,
    ((claim_C8 [("STATE_URL_DICT.json", "\x7b")] "STATE_URL_DICT.json").2.1 "\x7b" rfl).1.mpr rfl⟩

/-- C3: with an already non-empty `state_url` cache, `build_state_url_dict`
returns the cached mapping as-is and issues no fetch — on any fetched-page
oracle — so two successive calls (the file system being left untouched by
the first) return identical mappings and neither triggers a fetch. -/
theorem claim_C3 (fs : FS) (kvs : List (String × JsonVal)) (page page2 : List Area)
    (hopen : openCache fs "STATE_URL_DICT.json" = .ok (.obj kvs))
    (hne : kvs ≠ []) :
    build_state_url_dict page fs = .ok (.obj kvs, fs, false) ∧
    build_state_url_dict page2 fs = .ok (.obj kvs, fs, false) := by
  have hlen : kvs.length ≠ 0 := by simpa using hne
  constructor <;>
    · unfold build_state_url_dict
      simp [hopen, pyLen, hlen]

/-- C3 witness: a cache file holding one state entry is returned unchanged
by two successive builds against different page oracles, with no fetch. -/
theorem claim_C3_witness :
    build_state_url_dict []
        (closeCache (.obj [("michigan", .str "https://www.nps.gov/state/mi/index.htm")])
          "STATE_URL_DICT.json" [])
      = .ok (.obj [("michigan", .str "https://www.nps.gov/state/mi/index.htm")],
          closeCache (.obj [("michigan", .str "https://www.nps.gov/state/mi/index.htm")])
            "STATE_URL_DICT.json" [], false) ∧
    build_state_url_dict [⟨"Ohio", "/state/oh/index.htm"⟩]
        (closeCache (.obj [("michigan", .str "https://www.nps.gov/state/mi/index.htm")])
          "STATE_URL_DICT.json" [])
      = .ok (.obj [("michigan", .str "https://www.nps.gov/state/mi/index.htm")],
          closeCache (.obj [("michigan", .str "https://www.nps.gov/state/mi/index.htm")])
            "STATE_URL_DICT.json" [], false) :=
  claim_C3 _ _ [] [⟨"Ohio", "/state/oh/index.htm"⟩]
    (openCache_closeCache _ _ _) (by intro h; exact List.noConfusion h)

/-- C4: on a cache miss, a detail page whose title block parses but whose
structured address block is absent makes `get_site_instance` return `None`
with the file system — hence the site-detail cache file — exactly as it
was (a fetch is issued, nothing is written). -/
theorem claim_C4 (pages : String → DetailPage) (site_url : String) (fs : FS)
    (kvs : List (String × JsonVal)) (nm cat : String)
    (hopen : openCache fs "SITE_URL_DICT.json" = .ok (.obj kvs))
    (hmiss : dictGet kvs site_url = none)
    (hname : (pages site_url).heroName = some nm)
    (hcat : (pages site_url).heroDesignation = some cat)
    (hnoadr : (pages site_url).adr = none) :
    get_site_instance pages site_url fs = .ok (none, fs, true) := by
  unfold get_site_instance
  simp [hopen, pyContains, hmiss, hname, hcat, hnoadr, pyAttr]

/-- C4 witness: with an empty file system (so an empty site-detail cache)
and a page without an address block, resolution yields `None` and the file
system is unchanged. -/
theorem claim_C4_witness :
    get_site_instance (fun _ => ⟨some "Fort Wayne", some "", none, some "555"⟩) "u" []
      = .ok (none, [], true) :=
  claim_C4 _ "u" [] [] "Fort Wayne" "" rfl rfl rfl rfl rfl

/-- C10: on a cache hit whose stored entry holds the five string fields,
`get_site_instance` returns the `NationalSite` reconstructed from exactly
those fields, issues no fetch, and returns the file system unchanged (no
cache write). -/
theorem claim_C10 (pages : String → DetailPage) (site_url : String) (fs : FS)
    (kvs entry : List (String × JsonVal)) (cat nm addr zip ph : String)
    (hopen : openCache fs "SITE_URL_DICT.json" = .ok (.obj kvs))
    (hhit : dictGet kvs site_url = some (.obj entry))
    (hcat : dictGet entry "category" = some (.str cat))
    (hnm : dictGet entry "name" = some (.str nm))
    (haddr : dictGet entry "address" = some (.str addr))
    (hzip : dictGet entry "zipcode" = some (.str zip))
    (hph : dictGet entry "phone" = some (.str ph)) :
    get_site_instance pages site_url fs = .ok (some ⟨cat, nm, addr, zip, ph⟩, fs, false) := by
  unfold get_site_instance
  simp [hopen, pyContains, pySubscript, readField, asStr, hhit, hcat, hnm, haddr, hzip, hph]

/-- C10 witness: a cache file holding one complete entry for `"u"` is read
back into the same site, against a page oracle that would fail on any
access — demonstrating no fetch occurs — and the file system is returned
unchanged. -/
theorem claim_C10_witness :
    get_site_instance (fun _ => ⟨none, none, none, none⟩) "u"
        (closeCache (.obj [("u", .obj [("category", .str "c"), ("name", .str "n"),
            ("address", .str "a"), ("zipcode", .str "z"), ("phone", .str "p")])])
          "SITE_URL_DICT.json" [])
      = .ok (some ⟨"c", "n", "a", "z", "p"⟩,
          closeCache (.obj [("u", .obj [("category", .str "c"), ("name", .str "n"),
              ("address", .str "a"), ("zipcode", .str "z"), ("phone", .str "p")])])
            "SITE_URL_DICT.json" [], false) :=
  claim_C10 _ "u" _ _ _ "c" "n" "a" "z" "p"
    (openCache_closeCache _ _ _) rfl rfl rfl rfl rfl rfl

/-- C5 — counterexample to the claim as stated: for a detail page whose
region span reads `" MI "` (whitespace around the region text), the
resolved site's address is `"Houghton, MI"` — the code strips the region
text (line 130: `state.text.strip()`) — which differs from the claim's
composition `city ++ ", " ++ region`. -/
theorem claim_C5_counterexample :
    (∃ fs2, get_site_instance
        (fun _ => ⟨some "Fort", some "Monument",
          some ⟨some "Houghton", some " MI ", some " 49931 "⟩, some "555"⟩) "u" []
      = .ok (some ⟨"Monument", "Fort", "Houghton, MI", "49931", "555"⟩, fs2, true)) ∧
    "Houghton, MI" ≠ "Houghton" ++ ", " ++ " MI " := by
  constructor
  · exact ⟨_, rfl⟩
  · decide

/-- C5 (amended): on a cache miss, a detail page with a complete address
block resolves to a Site whose address is the city text, `", "`, then the
region text stripped of surrounding whitespace, and whose zipcode is the
postal text stripped of surrounding whitespace — so the returned zipcode
has no leading or trailing whitespace. -/
theorem claim_C5 (pages : String → DetailPage) (site_url : String) (fs : FS)
    (kvs : List (String × JsonVal)) (adrB : AdrBlock)
    (nm cat city region postal tel : String)
    (hopen : openCache fs "SITE_URL_DICT.json" = .ok (.obj kvs))
    (hmiss : dictGet kvs site_url = none)
    (hname : (pages site_url).heroName = some nm)
    (hcat : (pages site_url).heroDesignation = some cat)
    (hadr : (pages site_url).adr = some adrB)
    (hcity : adrB.addressLocality = some city)
    (hregion : adrB.addressRegion = some region)
    (hpostal : adrB.postalCode = some postal)
    (htel : (pages site_url).telephone = some tel) :
    ∃ ns fs2, get_site_instance pages site_url fs = .ok (some ns, fs2, true) ∧
      ns.address = city ++ ", " ++ pyStrip region ∧
      ns.zipcode = pyStrip postal ∧
      (∀ c, ns.zipcode.data.head? = some c → isWsChar c = false) ∧
      (∀ c, ns.zipcode.data.reverse.head? = some c → isWsChar c = false) := by
  refine ⟨⟨cat, nm, city ++ ", " ++ pyStrip region, pyStrip postal, pyStrip tel⟩,
    closeCache (.obj (dictSet kvs site_url (.obj
      [("category", .str cat), ("name", .str nm),
       ("address", .str (city ++ ", " ++ pyStrip region)),
       ("zipcode", .str (pyStrip postal)), ("phone", .str (pyStrip tel))])))
      "SITE_URL_DICT.json" fs, ?_, rfl, rfl,
    pyStrip_head_not_ws postal, pyStrip_tail_not_ws postal⟩
  unfold get_site_instance
  simp [hopen, pyContains, hmiss, hname, hcat, hadr, hcity, hregion, hpostal, htel,
    pyAttr, pySetItem]

/-- C5 witness: a concrete page with whitespace around the postal text
resolves to a site with composed address and trimmed zipcode. -/
theorem claim_C5_witness :
    ∃ ns fs2, get_site_instance
        (fun _ => ⟨some "Fort", some "Monument",
          some ⟨some "Houghton", some "MI", some " 49931 "⟩, some "555"⟩) "u" []
      = .ok (some ns, fs2, true) ∧
      ns.address = "Houghton" ++ ", " ++ pyStrip "MI" ∧
      ns.zipcode = pyStrip " 49931 " ∧
      (∀ c, ns.zipcode.data.head? = some c → isWsChar c = false) ∧
      (∀ c, ns.zipcode.data.reverse.head? = some c → isWsChar c = false) :=
  claim_C5 _ "u" [] [] ⟨some "Houghton", some "MI", some " 49931 "⟩
    "Fort" "Monument" "Houghton" "MI" " 49931 " "555"
    rfl rfl rfl rfl rfl rfl rfl rfl rfl

/-- C7: two sites with the same zipcode, that zipcode initially uncached:
the first `get_nearby_places` issues the one network request and persists
the decoded response keyed by the postal code; the second is served from
the written cache with no request and returns the identical response —
exactly one request in total. -/
theorem claim_C7 (api : String → JsonVal) (key : String) (s1 s2 : NationalSite)
    (fs : FS) (kvs : List (String × JsonVal))
    (hzip : s1.zipcode = s2.zipcode)
    (hopen : openCache fs "NEARBY_PLACES.json" = .ok (.obj kvs))
    (hmiss : dictGet kvs s1.zipcode = none) :
    get_nearby_places api key s1 fs
        = .ok (api (mapquestURL key s1.zipcode),
            closeCache (.obj (dictSet kvs s1.zipcode (api (mapquestURL key s1.zipcode))))
              "NEARBY_PLACES.json" fs, true) ∧
    get_nearby_places api key s2
        (closeCache (.obj (dictSet kvs s1.zipcode (api (mapquestURL key s1.zipcode))))
          "NEARBY_PLACES.json" fs)
      = .ok (api (mapquestURL key s1.zipcode),
          closeCache (.obj (dictSet kvs s1.zipcode (api (mapquestURL key s1.zipcode))))
            "NEARBY_PLACES.json" fs, false) := by
  constructor
  · unfold get_nearby_places
    simp [hopen, pyContains, hmiss, pySetItem]
  · unfold get_nearby_places
    rw [openCache_closeCache]
    simp [pyContains, pySubscript, ← hzip, dictGet_dictSet_self]

/-- C7 witness: two identical concrete sites sharing zipcode `"49931"`, an
empty file system: one request total, identical results. -/
theorem claim_C7_witness :
    get_nearby_places (fun _ => .null) "k" ⟨"", "n", "a", "49931", "p"⟩ []
        = .ok ((fun _ => JsonVal.null) (mapquestURL "k" "49931"),
            closeCache (.obj (dictSet [] "49931" ((fun _ => JsonVal.null)
              (mapquestURL "k" "49931")))) "NEARBY_PLACES.json" [], true) ∧
    get_nearby_places (fun _ => .null) "k" ⟨"", "n", "a", "49931", "p"⟩
        (closeCache (.obj (dictSet [] "49931" ((fun _ => JsonVal.null)
          (mapquestURL "k" "49931")))) "NEARBY_PLACES.json" [])
      = .ok ((fun _ => JsonVal.null) (mapquestURL "k" "49931"),
          closeCache (.obj (dictSet [] "49931" ((fun _ => JsonVal.null)
            (mapquestURL "k" "49931")))) "NEARBY_PLACES.json" [], false) :=
  claim_C7 (fun _ => .null) "k" ⟨"", "n", "a", "49931", "p"⟩ ⟨"", "n", "a", "49931", "p"⟩
    [] [] rfl rfl rfl

/-- `get_sites_for_state` equals: resolve exactly the asset-marked entries in
document order, then drop the `none` results, keeping order and duplicates. -/
lemma sites_eq_resolveAll (pages : String → DetailPage) :
    ∀ (blocks : List StateBlock) (fs : FS),
    get_sites_for_state pages blocks fs
      = Except.map (fun p => (p.1.reduceOption, p.2))
          (resolveAll pages (blocks.filter isAssetBlock) fs) := by
  intro blocks
  induction blocks with
  | nil => intro fs; rfl
  | cons b bs ih =>
    intro fs
    rw [get_sites_for_state]
    cases hid : b.id with
    | none =>
      have hasset : isAssetBlock b = false := by simp [isAssetBlock, hid]
      simp only [List.filter_cons, hasset, Bool.false_eq_true, if_false]
      exact ih fs
    | some i =>
      by_cases hpre : pyStartswith i "asset"
      · have hasset : isAssetBlock b = true := by simp [isAssetBlock, hid, hpre]
        simp only [List.filter_cons, hasset, if_true, hpre, if_pos]
        rw [resolveAll]
        cases hhref : b.href with
        | none => simp [Except.map]
        | some href =>
          simp only [hhref]
          cases hres : get_site_instance pages ("https://www.nps.gov" ++ href) fs with
          | error e => simp [Except.map]
          | ok t =>
            obtain ⟨nsOpt, fs2, fl⟩ := t
            dsimp only
            rw [ih fs2]
            cases hrec : resolveAll pages (bs.filter isAssetBlock) fs2 with
            | error e => simp [Except.map]
            | ok q =>
              obtain ⟨os, fs3⟩ := q
              simp only [Except.map]
              cases nsOpt with
              | some ns => simp [List.reduceOption_cons_of_some]
              | none => simp [List.reduceOption_cons_of_none]
      · have hasset : isAssetBlock b = false := by simp [isAssetBlock, hid, hpre]
        simp only [List.filter_cons, hasset, Bool.false_eq_true, if_false, hpre, if_neg]
        exact ih fs

set_option maxRecDepth 8192 in
/-- C6: the state catalog resolves exactly the asset-marked entries of the
state page in document order, silently dropping every entry whose
resolution yields `None` while preserving order and duplicates (the general
equation); in particular, on a concrete state page with three asset entries
whose second detail page lacks the address block, the result is the
two-element list of the first and third sites, in that order. -/
theorem claim_C6 :
    (∀ (pages : String → DetailPage) (blocks : List StateBlock) (fs : FS),
      get_sites_for_state pages blocks fs
        = Except.map (fun p => (p.1.reduceOption, p.2))
            (resolveAll pages (blocks.filter isAssetBlock) fs)) ∧
    Except.map Prod.fst
        (get_sites_for_state
          (fun u =>
            if u = "https://www.nps.gov/p2" then
              ⟨some "N2", some "C2", none, some "t2"⟩
            else if u = "https://www.nps.gov/p3" then
              ⟨some "N3", some "C3", some ⟨some "c3", some "r3", some "z3"⟩, some "t3"⟩
            else
              ⟨some "N1", some "C1", some ⟨some "c1", some "r1", some "z1"⟩, some "t1"⟩)
          [⟨some "asset_1", some "/p1"⟩, ⟨some "asset_2", some "/p2"⟩,
            ⟨some "asset_3", some "/p3"⟩]
          [])
      = .ok [⟨"C1", "N1", "c1, r1", "z1", "t1"⟩, ⟨"C3", "N3", "c3, r3", "z3", "t3"⟩] :=
  ⟨fun pages blocks fs => sites_eq_resolveAll pages blocks fs, rfl⟩

lemma pyIndex_neg {α : Type} (xs : List α) (i : Int) (hi : i < 0)
    (h1 : 0 ≤ i + (xs.length : Int)) (hnat : (i + (xs.length : Int)).toNat < xs.length) :
    pyIndex xs i = some (xs.get ⟨(i + (xs.length : Int)).toNat, hnat⟩) := by
  dsimp only [pyIndex]
  rw [if_pos hi, if_pos h1, List.getElem?_eq_getElem hnat, List.get_eq_getElem]

lemma pyIndex_none {α : Type} (xs : List α) (i : Int) (hi : i < 0)
    (h1 : i + (xs.length : Int) < 0) :
    pyIndex xs i = none := by
  dsimp only [pyIndex]
  rw [if_pos hi, if_neg (by omega : ¬(0 : Int) ≤ i + (xs.length : Int))]

/-- C9: in the selection loop, for a non-empty site list a numeric token is
reported as invalid input exactly when it exceeds the list length; the token
`"0"` is accepted and selects the last listed site via Python negative
indexing, a negative id `-k` with `k ≤ length - 1` is accepted and selects
the `(k+1)`-th site from the end, while an id below `-(length - 1)` escapes
the `ValueError` handler as an uncaught `IndexError`. -/
theorem claim_C9 {α : Type} (sites : List α) (h : sites ≠ []) :
    selectSite sites "0" = .selected (sites.getLast h) ∧
    (∀ k : Nat, 1 ≤ k → k ≤ sites.length - 1 →
      ∀ hk : sites.length - 1 - k < sites.length,
        selectSiteInt sites (-(k : Int))
          = .selected (sites.get ⟨sites.length - 1 - k, hk⟩)) ∧
    (∀ i : Int, i < -((sites.length : Int) - 1) →
      selectSiteInt sites i = .crashIndexError) ∧
    (∀ i : Int, selectSiteInt sites i = .invalid ↔ (sites.length : Int) < i) := by
  have hlen : 0 < sites.length := List.length_pos.2 h
  refine ⟨?_, ?_, ?_, ?_⟩
  · have hp : pyInt "0" = some 0 := rfl
    have hnat : ((0 : Int) - 1 + (sites.length : Int)).toNat < sites.length := by omega
    have hidx := pyIndex_neg sites (0 - 1) (by omega) (by omega) hnat
    have hget : sites.get ⟨((0 : Int) - 1 + (sites.length : Int)).toNat, hnat⟩
        = sites.getLast h := by
      have hv : ((0 : Int) - 1 + (sites.length : Int)).toNat = sites.length - 1 := by
        omega
      have h2 : sites.get ⟨((0 : Int) - 1 + (sites.length : Int)).toNat, hnat⟩
          = sites.get ⟨sites.length - 1, by omega⟩ := by
        congr 1
        exact Fin.ext hv
      rw [h2]
      exact List.get_length_sub_one _
    unfold selectSite
    rw [hp]
    dsimp only
    unfold selectSiteInt
    rw [if_neg (by omega), hidx]
    dsimp only
    rw [hget]
  · intro k hk1 hk2 hk
    have hnat : (-(k : Int) - 1 + (sites.length : Int)).toNat < sites.length := by
      omega
    have hidx := pyIndex_neg sites (-(k : Int) - 1) (by omega) (by omega) hnat
    have hget : sites.get ⟨(-(k : Int) - 1 + (sites.length : Int)).toNat, hnat⟩
        = sites.get ⟨sites.length - 1 - k, hk⟩ := by
      have hv : (-(k : Int) - 1 + (sites.length : Int)).toNat = sites.length - 1 - k := by
        omega
      congr 1
      exact Fin.ext hv
    unfold selectSiteInt
    rw [if_neg (by omega), hidx]
    dsimp only
    rw [hget]
  · intro i hi
    unfold selectSiteInt
    rw [if_neg (by omega), pyIndex_none sites (i - 1) (by omega) (by omega)]
  · intro i
    constructor
    · intro hres
      by_contra hgt
      unfold selectSiteInt at hres
      rw [if_neg (by omega)] at hres
      cases hp : pyIndex sites (i - 1) with
      | some x => simp [hp] at hres
      | none => simp [hp] at hres
    · intro hgt
      unfold selectSiteInt
      rw [if_pos (by omega)]

/-- C9 witness: on the concrete list `["a", "b", "c"]`, token `"0"` selects
`"c"` (the last), id `-1` selects `"b"` (second from the end), id `-3` is
an uncaught `IndexError`, and id `4` is invalid input. -/
theorem claim_C9_witness :
    selectSite ["a", "b", "c"] "0" = .selected "c" ∧
    selectSiteInt ["a", "b", "c"] (-1) = .selected "b" ∧
    selectSiteInt ["a", "b", "c"] (-3) = .crashIndexError ∧
    selectSiteInt ["a", "b", "c"] 4 = .invalid := by
  have hc := claim_C9 ["a", "b", "c"] (by decide)
  refine ⟨hc.1, ?_, hc.2.2.1 (-3) (by decide), (hc.2.2.2 4).mpr (by decide)⟩
  have h2 := hc.2.1 1 (by decide) (by decide) (by decide)
  simpa using h2
